import Mathlib

/-!
Shallow embedding of the `MoodleClient` component of the webeep-sync
repository (`src/moodle.ts`), together with proofs about the claims of the
specification.

Modelling conventions:
* Strings are Lean `String`s / `List Char`.
* The asynchronous network layer is modelled by a trace of outcomes, one per
  actual HTTP request performed: a request either throws (network error or a
  JSON parse error, both land in the same `catch`), yields a parsed body with
  `errorcode = 'invalidtoken'`, or yields a parsed payload.
* `loginManager.createLoginWindow()` (whose source, `login.ts`, is not part of
  the analysed sources) is modelled from the spec: the interactive
  authentication provider either succeeds (and then `isLogged` is true) or
  fails/cancels.  Each interactive attempt consumes one boolean of a trace.
* The recursive `call` (including the `tryConnection` retry loop of the catch
  branch) is a structurally recursive function on an explicit fuel; running
  out of fuel or out of trace yields the `stuck` result, meaning that the
  execution would need more events than the given trace provides.
* The 5-second timer of the retry loop is pure real time and is not modelled;
  only the ordering of attempts is.
-/

set_option autoImplicit false

namespace Webeep

/-! ## Data model (`src/moodle.ts`, lines 6-30) -/

/-- A course as returned by `getCourses` (interface `Course`). -/
structure Course where
  id : Int
  name : String
  deriving Repr, DecidableEq

/-- A downloadable file as returned by `getFileInfos` (interface `FileInfo`). -/
structure FileInfo where
  filename : String
  filepath : String
  filesize : Nat
  fileurl : String
  timecreated : Nat
  timemodified : Nat
  deriving Repr, DecidableEq

/-- One entry of a module's `contents` array: a `FileInfo` together with its
`type` discriminator (the `{ type: string } & FileInfo` member of the
`Contents` type). -/
structure FileContent where
  type : String
  filename : String
  filepath : String
  filesize : Nat
  fileurl : String
  timecreated : Nat
  timemodified : Nat
  deriving Repr, DecidableEq

/-- A module of a course-contents section; `contents` is optional
(`contents?` in the TypeScript type). -/
structure CModule where
  id : Int
  name : String
  contents : Option (List FileContent)
  deriving Repr, DecidableEq

/-- A section of the course contents (one element of the `Contents` array). -/
structure CSection where
  id : Int
  name : String
  modules : List CModule
  deriving Repr, DecidableEq

/-- The parsed body of `core_webservice_get_site_info` as used by
`getUserID` (the destructured `{ userid, fullname }`). -/
structure SiteInfo where
  userid : Int
  fullname : String
  deriving Repr, DecidableEq

/-- One element of the `core_enrol_get_users_courses` response as used by
`getCourses` (the destructured `{ id, fullname }`). -/
structure RawCourse where
  id : Int
  fullname : String
  deriving Repr, DecidableEq

/-! ## The low-level `call` method (`src/moodle.ts`, lines 52-94) -/

/-- Outcome of one actual HTTP round trip performed by `call`, over an
abstract payload type `α` (the parsed JSON body of a normal response). -/
inductive NetOutcome (α : Type) where
  /-- The `got.post` (or the subsequent `JSON.parse`) throws. -/
  | netError
  /-- The parsed body carries `errorcode = 'invalidtoken'`. -/
  | invalidToken
  /-- A normal parsed body. -/
  | ok (v : α)
  deriving Repr, DecidableEq

/-- Events emitted on the `MoodleClient` event emitter. -/
inductive Ev where
  | disconnected
  | reconnected
  | netEvent (connected : Bool)
  | usernameEv (fullname : String)
  deriving Repr, DecidableEq

/-- Result of a `call` invocation: the promise resolves with a value
(`undefined` is `none`), the promise rejects, or the model ran out of
trace/fuel before the invocation settled. -/
inductive CallRes (α : Type) where
  | value (v : Option α)
  | thrown
  | stuck
  deriving Repr, DecidableEq

/-- Mutable state of the `MoodleClient` singleton (fields of the class,
lines 39-43) together with the `loginManager.isLogged` flag it reads. -/
structure MoodleState where
  connected : Bool
  isLogged : Bool
  userid : Option Int
  username : Option String
  cachedCourses : List Course
  deriving Repr, DecidableEq

/-- The state of a fresh `MoodleClient`: `connected` is initialised to `true`
(line 41) and `cachedCourses` to `[]` (line 43); `userid` and `username`
start unset.  `isLogged` belongs to the external login manager. -/
def initialMoodleState (isLogged : Bool) : MoodleState :=
  { connected := true
    isLogged := isLogged
    userid := none
    username := none
    cachedCourses := [] }

/-- Output of running (a piece of) `call`: the settled result, the client
state afterwards, the unconsumed network outcomes, the unconsumed
interactive-login outcomes, and the events emitted, in order. -/
structure CallOut (α : Type) where
  res : CallRes α
  st : MoodleState
  nets : List (NetOutcome α)
  logins : List Bool
  evs : List Ev
  deriving Repr, DecidableEq

/-- Which piece of `call` is running: the method itself (with its
`catchNetworkError` argument), or the `tryConnection` loop of its catch
branch. -/
inductive Mode where
  | call (catchNet : Bool)
  | retry
  deriving Repr, DecidableEq

/-- Trace semantics of `MoodleClient.call` (lines 52-94) and of the
`tryConnection` loop inside its catch branch (lines 79-91).

`Mode.call catchNet`:
* line 53: if `connected` is false, return `undefined`;
* line 54: if `isLogged` is false, return `undefined`;
* otherwise one HTTP request is performed, consuming the head of `nets`:
  * `ok v`: return the parsed body (line 71);
  * `invalidToken` (line 68): `createLoginWindow()` consumes the head of
    `logins` and sets `isLogged` accordingly (modelled from the spec, see the
    module docstring); if it succeeded, re-invoke
    `this.call(wsfunction, data)` — with the *default* `catchNetworkError`,
    i.e. `true` (line 70); otherwise fall through, returning `undefined`;
  * `netError` (line 72): if `catchNet`, set `connected := false`, emit
    `disconnected` and `network_event false` (lines 75-77) and run the
    `tryConnection` loop; else rethrow (line 92).

`Mode.retry` (one iteration of `tryConnection`): invoke
`this.call(wsfunction, data, false)`; if it throws, loop again after the
5-second timer (line 87); if it resolves, resolve the pending promise with
its value, set `connected := true` and emit `reconnected` and
`network_event true` (lines 82-85). -/
def exec {α : Type} : Nat → Mode → MoodleState → List (NetOutcome α) → List Bool → CallOut α
  | 0, _, st, nets, logins => ⟨.stuck, st, nets, logins, []⟩
  | fuel+1, .retry, st, nets, logins =>
    let out := exec fuel (.call false) st nets logins
    match out.res with
    | .thrown =>
      let out2 := exec fuel .retry out.st out.nets out.logins
      ⟨out2.res, out2.st, out2.nets, out2.logins, out.evs ++ out2.evs⟩
    | .value v =>
      ⟨.value v, { out.st with connected := true }, out.nets, out.logins,
        out.evs ++ [.reconnected, .netEvent true]⟩
    | .stuck => out
  | fuel+1, .call catchNet, st, nets, logins =>
    if st.connected = false then ⟨.value none, st, nets, logins, []⟩
    else if st.isLogged = false then ⟨.value none, st, nets, logins, []⟩
    else
      match nets with
      | [] => ⟨.stuck, st, [], logins, []⟩
      | .netError :: rest =>
        if catchNet then
          let st1 := { st with connected := false }
          let out := exec fuel .retry st1 rest logins
          ⟨out.res, out.st, out.nets, out.logins,
            .disconnected :: .netEvent false :: out.evs⟩
        else ⟨.thrown, st, rest, logins, []⟩
      | .invalidToken :: rest =>
        match logins with
        | [] => ⟨.stuck, st, rest, [], []⟩
        | logged :: ls =>
          let st1 := { st with isLogged := logged }
          if logged then exec fuel (.call true) st1 rest ls
          else ⟨.value none, st1, rest, ls, []⟩
      | .ok v :: rest => ⟨.value (some v), st, rest, logins, []⟩

/-- `MoodleClient.call` itself. -/
def callM {α : Type} (fuel : Nat) (catchNet : Bool) (st : MoodleState)
    (nets : List (NetOutcome α)) (logins : List Bool) : CallOut α :=
  exec fuel (.call catchNet) st nets logins

/-! ## Node's `path.join` (used at line 134), POSIX flavour

`path.join(a, b)` concatenates the non-empty arguments with `'/'` and
normalizes the result: empty and `"."` segments are dropped, `".."` pops a
previous segment (or is kept at the front of a relative path), a trailing
separator is preserved, and the empty join yields `"."`. -/

/-- Split a character list on `'/'` (boundaries produce empty segments). -/
def splitSlash : List Char → List (List Char)
  | [] => [[]]
  | c :: rest =>
    if c = '/' then [] :: splitSlash rest
    else
      match splitSlash rest with
      | h :: t => (c :: h) :: t
      | [] => [[c]]

/-- Resolve `"."` and `".."` segments; `acc` is the stack of kept segments in
reverse order.  `allowAbove` is true for relative paths, where leading
`".."` segments are preserved. -/
def processParts (allowAbove : Bool) : List (List Char) → List (List Char) → List (List Char)
  | acc, [] => acc.reverse
  | acc, p :: ps =>
    if p = [] ∨ p = ['.'] then processParts allowAbove acc ps
    else if p = ['.', '.'] then
      match acc with
      | t :: rest =>
        if t = ['.', '.'] then processParts allowAbove (p :: t :: rest) ps
        else processParts allowAbove rest ps
      | [] =>
        if allowAbove then processParts allowAbove [p] ps
        else processParts allowAbove [] ps
    else processParts allowAbove (p :: acc) ps

/-- Join segments with `'/'`. -/
def joinParts : List (List Char) → List Char
  | [] => []
  | [p] => p
  | p :: ps => p ++ '/' :: joinParts ps

/-- `path.posix.normalize` on a non-empty character list. -/
def normalizePathL (l : List Char) : List Char :=
  let isAbs := l.head? = some '/'
  let trail := l.getLast? = some '/'
  let core := joinParts (processParts (!isAbs) [] (splitSlash l))
  let core := if core = [] then (if isAbs then [] else ['.']) else core
  let core := if core ≠ [] ∧ core ≠ ['.'] ∧ trail then core ++ ['/'] else core
  if isAbs then '/' :: core else core

/-- `path.join(a, b)` for two arguments. -/
def pathJoin (a b : String) : String :=
  let joined :=
    if a.data = [] ∧ b.data = [] then []
    else if a.data = [] then b.data
    else if b.data = [] then a.data
    else a.data ++ '/' :: b.data
  if joined = [] then "." else ⟨normalizePathL joined⟩

/-! ## The display-name normalization of `getCourses` (lines 109-115)

`name.match(/\d+ - (.+) \(.+\)/)` with JavaScript semantics: the pattern is
unanchored, the leftmost match wins, `\d` is `[0-9]`, `.` is any character
except a line terminator, and the quantifiers are greedy with backtracking.
If the pattern matches, the name is replaced by the first capture group. -/

/-- The JavaScript `.` character class: anything but a line terminator. -/
def jsDot (c : Char) : Bool :=
  c != '\n' && c != '\r' && c.val != 0x2028 && c.val != 0x2029

/-- Does `\)` occur after at least zero more `.` characters?  Scanning for
the closing parenthesis of `\(.+\)`, where every character skipped over is
consumed by the greedy `.+` and must be a `.`-character. -/
def closeAfter : List Char → Bool
  | [] => false
  | c :: rest => c == ')' || (jsDot c && closeAfter rest)

/-- Does `.+\)` match a prefix of `u`?  The `.+` needs at least one
`.`-character before the closing parenthesis. -/
def innerOk : List Char → Bool
  | [] => false
  | c :: rest => jsDot c && closeAfter rest

/-- Does ` \(.+\)` match a prefix of `l`? -/
def tailOk (l : List Char) : Bool :=
  match l with
  | a :: b :: u => a == ' ' && b == '(' && innerOk u
  | _ => false

/-- Can the capture group end right after `j` characters?  The group `(.+)`
must consume only `.`-characters and be followed by ` \(.+\)`. -/
def splitOk (t : List Char) (j : Nat) : Bool :=
  (t.take j).all jsDot && tailOk (t.drop j)

/-- Largest `j` in `[1, bound]` at which the capture group can end — the
greedy `(.+)` prefers the longest group that lets the rest of the pattern
match. -/
def maxSplitAux (t : List Char) : Nat → Option Nat
  | 0 => none
  | j+1 => if splitOk t (j+1) then some (j+1) else maxSplitAux t j

/-- The capture group of `(.+) \(.+\)` matched greedily against `t`. -/
def capTail (t : List Char) : Option (List Char) :=
  (maxSplitAux t t.length).map fun j => t.take j

/-- Try to match `\d+ - (.+) \(.+\)` at the start of `s`, returning the
capture group.  `\d+` takes the maximal digit run (a shorter run would be
followed by a digit, never by the required space), then ` - ` must follow,
then the capture and the parenthesised tail. -/
def tryStart (s : List Char) : Option (List Char) :=
  match s with
  | [] => none
  | c :: _ =>
    if c.isDigit then
      match s.dropWhile Char.isDigit with
      | ' ' :: '-' :: ' ' :: t => capTail t
      | _ => none
    else none

/-- Leftmost match: try every start position left to right. -/
def regexCapture : List Char → Option (List Char)
  | [] => none
  | c :: cs =>
    match tryStart (c :: cs) with
    | some g => some g
    | none => regexCapture cs

/-- The body of the `map` in `getCourses` (lines 110-114): replace the name
by the capture group when the regex matches. -/
def normalizeNameL (l : List Char) : List Char :=
  match regexCapture l with
  | some g => g
  | none => l

/-- String-level wrapper of `normalizeNameL`. -/
def normalizeName (s : String) : String := ⟨normalizeNameL s.data⟩

/-- One course of the `getCourses` result: the raw `{ id, fullname }` with
the normalized name. -/
def courseOfRaw (c : RawCourse) : Course :=
  { id := c.id, name := normalizeName c.fullname }

/-- The claim's "exact shape" `<digits> - <name> (<suffix>)`: a non-empty
digit prefix, the literal separator, a non-empty name, and a non-empty
parenthesised suffix closing the string. -/
def isShape (l : List Char) : Prop :=
  ∃ d n suf : List Char,
    d ≠ [] ∧ (∀ c ∈ d, c.isDigit) ∧ n ≠ [] ∧ suf ≠ [] ∧
      l = d ++ [' ', '-', ' '] ++ n ++ [' ', '('] ++ suf ++ [')']

/-! ## Derived operations -/

/-- Result of one of the higher-level methods: the promise resolves with a
value, rejects, or the trace/fuel ran out. -/
inductive MRes (α : Type) where
  | ok (v : α)
  | thrown
  | stuck
  deriving Repr, DecidableEq

/-- `getUserID` (lines 96-103): call `core_webservice_get_site_info`, then
destructure the result — if the call resolved with `undefined` the
destructuring throws a `TypeError`, rejecting the promise; otherwise record
and return the data, emitting the `username` event. -/
def getUserIDM (fuel : Nat) (st : MoodleState)
    (nets : List (NetOutcome SiteInfo)) (logins : List Bool) :
    MRes Int × MoodleState × List Ev :=
  let out := callM fuel true st nets logins
  match out.res with
  | .stuck => (.stuck, out.st, out.evs)
  | .thrown => (.thrown, out.st, out.evs)
  | .value none => (.thrown, out.st, out.evs)
  | .value (some info) =>
    (.ok info.userid,
      { out.st with username := some info.fullname, userid := some info.userid },
      out.evs ++ [.usernameEv info.fullname])

/-- The `try` block of `getCourses` (lines 107-120): call
`core_enrol_get_users_courses` with `catchNetworkError = false`; any
exception — the call rethrowing a network error, or `courses.map` throwing
a `TypeError` because the call resolved with `undefined` — is caught and the
cached list returned; on success map the raw courses through the name
normalization, overwrite the cache and return the list. -/
def getCoursesFetch (fuel : Nat) (st : MoodleState) (evs0 : List Ev)
    (nets : List (NetOutcome (List RawCourse))) (logins : List Bool) :
    MRes (List Course) × MoodleState × List Ev :=
  let out := callM fuel false st nets logins
  match out.res with
  | .stuck => (.stuck, out.st, evs0 ++ out.evs)
  | .thrown => (.ok out.st.cachedCourses, out.st, evs0 ++ out.evs)
  | .value none => (.ok out.st.cachedCourses, out.st, evs0 ++ out.evs)
  | .value (some raw) =>
    let c := raw.map courseOfRaw
    (.ok c, { out.st with cachedCourses := c }, evs0 ++ out.evs)

/-- `getCourses` (lines 105-121): resolve the user id first —
`this.userid ?? await this.getUserID()` — *outside* the `try`, so a
rejection of `getUserID` propagates; then run the guarded fetch. -/
def getCoursesM (fuel : Nat) (st : MoodleState)
    (netsSite : List (NetOutcome SiteInfo)) (loginsSite : List Bool)
    (netsCourses : List (NetOutcome (List RawCourse))) (loginsCourses : List Bool) :
    MRes (List Course) × MoodleState × List Ev :=
  match st.userid with
  | some _ => getCoursesFetch fuel st [] netsCourses loginsCourses
  | none =>
    match getUserIDM fuel st netsSite loginsSite with
    | (.ok _, st1, evs) => getCoursesFetch fuel st1 evs netsCourses loginsCourses
    | (.thrown, st1, evs) => (.thrown, st1, evs)
    | (.stuck, st1, evs) => (.stuck, st1, evs)

/-- One `FileInfo` of the `getFileInfos` result (lines 133-135): the entry
with its `filepath` replaced by `path.join(modulename, filepath)`. -/
def fileInfoOfEntry (m : CModule) (f : FileContent) : FileInfo :=
  { filename := f.filename
    filepath := pathJoin m.name f.filepath
    filesize := f.filesize
    fileurl := f.fileurl
    timecreated := f.timecreated
    timemodified := f.timemodified }

/-- The inner loop of `getFileInfos` (lines 131-137): keep the entries whose
`type` is `"file"`. -/
def entryFiles (m : CModule) : List FileContent → List FileInfo
  | [] => []
  | f :: fs =>
    if f.type == "file" then fileInfoOfEntry m f :: entryFiles m fs
    else entryFiles m fs

/-- One module's contribution (lines 128-137): modules without a `contents`
array are skipped (`if (!contents) continue`). -/
def moduleFiles (m : CModule) : List FileInfo :=
  match m.contents with
  | none => []
  | some cs => entryFiles m cs

/-- The outer loop over the modules of the Materials section. -/
def modulesFiles : List CModule → List FileInfo
  | [] => []
  | m :: ms => moduleFiles m ++ modulesFiles ms

/-- The pure part of `getFileInfos` (lines 125-139): locate the section
named `'Materiali'`; without one return `[]`; otherwise collect the file
entries of its modules. -/
def fileInfosOfContents (contents : List CSection) : List FileInfo :=
  match contents.find? (fun c => c.name == "Materiali") with
  | none => []
  | some mat => modulesFiles mat.modules

/-- `getFileInfos` (lines 123-140): call `core_course_get_contents` (with
the default `catchNetworkError = true`); if the call resolved with
`undefined`, `contents.find` throws a `TypeError`, rejecting the promise. -/
def getFileInfosM (fuel : Nat) (st : MoodleState)
    (nets : List (NetOutcome (List CSection))) (logins : List Bool) :
    MRes (List FileInfo) × MoodleState × List Ev :=
  let out := callM fuel true st nets logins
  match out.res with
  | .stuck => (.stuck, out.st, out.evs)
  | .thrown => (.thrown, out.st, out.evs)
  | .value none => (.thrown, out.st, out.evs)
  | .value (some contents) => (.ok (fileInfosOfContents contents), out.st, out.evs)

/-! ## Helper lemmas -/

/-- When the client is disconnected or unauthenticated, `call` returns
`undefined` at once: no request is performed, no state change, no event. -/
theorem exec_not_ready {α : Type} (fuel : Nat) (catchNet : Bool) (st : MoodleState)
    (nets : List (NetOutcome α)) (logins : List Bool)
    (h : st.connected = false ∨ st.isLogged = false) :
    callM (fuel + 1) catchNet st nets logins = ⟨.value none, st, nets, logins, []⟩ := by
  rcases h with h | h
  · simp [callM, exec, h]
  · by_cases hc : st.connected = false
    · simp [callM, exec, hc]
    · simp [callM, exec, hc, h]

/-- `call` never writes the course cache. -/
theorem exec_cache {α : Type} (fuel : Nat) (m : Mode) (st : MoodleState)
    (nets : List (NetOutcome α)) (logins : List Bool) :
    (exec fuel m st nets logins).st.cachedCourses = st.cachedCourses := by
  induction fuel generalizing m st nets logins with
  | zero => rfl
  | succ fuel ih =>
    cases m with
    | retry =>
      simp only [exec]
      split
      · exact (ih .retry _ _ _).trans (ih (.call false) st nets logins)
      · exact ih (.call false) st nets logins
      · exact ih (.call false) st nets logins
    | call catchNet =>
      simp only [exec]
      split
      · rfl
      · split
        · rfl
        · split
          · rfl
          · split
            · exact ih .retry _ _ _
            · rfl
          · split
            · rfl
            · split
              · exact ih (.call true) _ _ _
              · rfl
          · rfl

/-! ## Claims -/

/-- C1: the claim says that on a network-level failure `call` emits the
disconnect notification once, re-attempts the call every 5 seconds until an
attempt succeeds, then emits the reconnect notification once and resolves the
caller's promise with the data of the successful re-attempt.  The code does
not do this: the catch branch sets `connected := false` *before* starting
`tryConnection`, so the re-attempt `this.call(wsfunction, data, false)`
short-circuits on line 53 and resolves with `undefined` without performing
any request.  This theorem evaluates the model at the failing input: a
connected, logged-in client whose first request fails while the network
would serve the retry (`ok 7`): both notifications are emitted, but the
promise resolves with `undefined` and the `ok 7` outcome is never consumed. -/
theorem call_netError_resolves_undefined :
    callM 4 true (initialMoodleState true) [.netError, .ok (7 : Nat)] []
      = ⟨.value none, initialMoodleState true, [.ok 7], [],
          [.disconnected, .netEvent false, .reconnected, .netEvent true]⟩ := by
  decide

/-- C2 (counterexample): the claim says the invalid-token handling triggers
re-authentication exactly once, and that a second consecutive invalid-token
response after a successful re-authentication makes the call give up and
return nothing.  On the trace `invalidToken, invalidToken, ok 5` with both
interactive logins succeeding, the code instead re-authenticates a second
time (both login outcomes are consumed) and resolves with the data `5` —
it does not give up after one cycle. -/
theorem call_invalidToken_repeat_counterexample :
    callM 4 true (initialMoodleState true) [.invalidToken, .invalidToken, .ok (5 : Nat)]
        [true, true]
      = ⟨.value (some 5), initialMoodleState true, [], [], []⟩
    ∧ (callM 4 true (initialMoodleState true) [.invalidToken, .invalidToken, .ok (5 : Nat)]
        [true, true]).res ≠ .value none := by
  decide

/-- C2 (amended): every invalid-token response triggers a re-authentication;
if it succeeds the original call is retried, and this repeats for each
consecutive invalid-token response, with no bound — after `n` consecutive
invalid-token responses with `n` successful re-authentications, the call
resolves with the data of the `n+1`-st attempt.  The call gives up (resolves
with `undefined`) exactly when a re-authentication attempt fails. -/
theorem call_invalidToken_reauth_each_time (n v : Nat) (st : MoodleState)
    (fuel : Nat) (rest : List (NetOutcome Nat)) (ls : List Bool)
    (h1 : st.connected = true) (h2 : st.isLogged = true) :
    callM (n + 1) true st (List.replicate n .invalidToken ++ [.ok v]) (List.replicate n true)
      = ⟨.value (some v), st, [], [], []⟩
    ∧ callM (fuel + 1) true st (.invalidToken :: rest) (false :: ls)
      = ⟨.value none, { st with isLogged := false }, rest, ls, []⟩ := by
  constructor
  · induction n with
    | zero => simp [callM, exec, h1, h2]
    | succ n ih =>
      have hst : { st with isLogged := true } = st := by
        cases st; simp_all
      have hstep :
          callM (n + 1 + 1) true st
              (.invalidToken :: (List.replicate n .invalidToken ++ [.ok v]))
              (true :: List.replicate n true)
            = callM (n + 1) true { st with isLogged := true }
                (List.replicate n .invalidToken ++ [.ok v]) (List.replicate n true) := by
        simp [callM, exec, h1, h2]
      rw [List.replicate_succ, List.replicate_succ, List.cons_append, hstep, hst]
      exact ih
  · simp [callM, exec, h1, h2]

/-- C2 (witness for the amended claim): two consecutive invalid-token
responses with two successful re-authentications then data, and the give-up
case on a failed re-authentication. -/
theorem call_invalidToken_reauth_each_time_witness :
    callM 3 true (initialMoodleState true)
        (List.replicate 2 .invalidToken ++ [.ok (5 : Nat)]) (List.replicate 2 true)
      = ⟨.value (some 5), initialMoodleState true, [], [], []⟩
    ∧ callM 1 true (initialMoodleState true) (.invalidToken :: [.ok (9 : Nat)]) (false :: [])
      = ⟨.value none, { initialMoodleState true with isLogged := false }, [.ok 9], [], []⟩ :=
  call_invalidToken_reauth_each_time 2 5 (initialMoodleState true) 0 [.ok 9] [] rfl rfl

/-- C7: whenever the client is marked disconnected or the login manager
reports not logged in, `call` short-circuits (lines 53-54): it resolves with
no result, performs no network request (the outcome trace is untouched),
changes no state and emits no event. -/
theorem call_short_circuit {α : Type} (fuel : Nat) (catchNet : Bool) (st : MoodleState)
    (nets : List (NetOutcome α)) (logins : List Bool)
    (h : st.connected = false ∨ st.isLogged = false) :
    callM (fuel + 1) catchNet st nets logins = ⟨.value none, st, nets, logins, []⟩ :=
  exec_not_ready fuel catchNet st nets logins h

/-- C7 (witness): a logged-out client. -/
theorem call_short_circuit_witness :
    (initialMoodleState false).isLogged = false
    ∧ callM 6 true (initialMoodleState false) [.ok (3 : Nat)] []
        = ⟨.value none, initialMoodleState false, [.ok 3], [], []⟩ :=
  ⟨rfl, call_short_circuit 5 true (initialMoodleState false) [.ok 3] [] (Or.inr rfl)⟩

/-- C8: the claim says the connected flag starts true, is cleared only by a
network-level failure, and once false returns to true only through a retry
attempt of the same call that succeeds — never spontaneously.  The code
does clear it only in the catch branch, but the exit is effectively
spontaneous: the retry attempt short-circuits on the just-cleared flag
(performing no request) and, not having thrown, immediately flips
`connected` back to true.  This theorem evaluates the model at the failing
input: a single network failure with no recovery available (empty remaining
trace); the client still ends with `connected = true`, having emitted
disconnect and reconnect back to back. -/
theorem connected_flag_behavior :
    (initialMoodleState true).connected = true
    ∧ callM 4 true (initialMoodleState true) ([.netError] : List (NetOutcome Nat)) []
        = ⟨.value none, initialMoodleState true, [], [],
            [.disconnected, .netEvent false, .reconnected, .netEvent true]⟩ := by
  decide

/-- C9: `getFileInfos` invoked while the client is disconnected or
unauthenticated rejects: the underlying `call` resolves with `undefined` and
`contents.find` on line 126 throws a `TypeError`.  It does not return an
empty list. -/
theorem getFileInfos_throws_when_not_ready (fuel : Nat) (st : MoodleState)
    (nets : List (NetOutcome (List CSection))) (logins : List Bool)
    (h : st.connected = false ∨ st.isLogged = false) :
    getFileInfosM (fuel + 1) st nets logins = (.thrown, st, []) := by
  unfold getFileInfosM
  rw [exec_not_ready fuel true st nets logins h]

/-- C9 (witness): a disconnected client with course contents available on
the wire. -/
theorem getFileInfos_throws_when_not_ready_witness :
    getFileInfosM 3 ⟨false, true, some 1, none, []⟩ [.ok [⟨1, "Materiali", []⟩]] []
      = (.thrown, ⟨false, true, some 1, none, []⟩, []) :=
  getFileInfos_throws_when_not_ready 2 ⟨false, true, some 1, none, []⟩
    [.ok [⟨1, "Materiali", []⟩]] [] (Or.inl rfl)

/-- C5: for a course whose contents listing has no Materials section
(`'Materiali'`), `getFileInfos` resolves with the empty list — the course is
skipped, not an error. -/
theorem fileInfos_no_materials_empty (fuel : Nat) (st : MoodleState)
    (contents : List CSection) (rest : List (NetOutcome (List CSection))) (logins : List Bool)
    (h1 : st.connected = true) (h2 : st.isLogged = true)
    (hm : contents.find? (fun c => c.name == "Materiali") = none) :
    getFileInfosM (fuel + 1) st (.ok contents :: rest) logins = (.ok [], st, []) := by
  unfold getFileInfosM callM exec
  simp [h1, h2, fileInfosOfContents, hm]

/-- C5 (witness): a contents listing with a single differently-named
section. -/
theorem fileInfos_no_materials_empty_witness :
    getFileInfosM 1 (initialMoodleState true)
        [.ok [⟨4, "Annunci", [⟨5, "m", some [⟨"file", "f.txt", "", 1, "u", 2, 3⟩]⟩]⟩]] []
      = (.ok [], initialMoodleState true, []) :=
  fileInfos_no_materials_empty 0 (initialMoodleState true)
    [⟨4, "Annunci", [⟨5, "m", some [⟨"file", "f.txt", "", 1, "u", 2, 3⟩]⟩]⟩] [] []
    rfl rfl (by decide)

/-- C6 (counterexample): the claim says `getCourses` never throws.  It can:
the user-id resolution `this.userid ?? await this.getUserID()` on line 106
runs *outside* the `try`.  With a logged-in client whose `userid` is not yet
cached, a network failure on the site-info request makes `call` resolve with
`undefined` (through the broken reconnect path), `getUserID` then throws
destructuring `undefined`, and `getCourses` rejects instead of returning the
cached list. -/
theorem getCourses_throws_counterexample :
    getCoursesM 4 (initialMoodleState true) [.netError] [] [] []
      = (.thrown, initialMoodleState true,
          [.disconnected, .netEvent false, .reconnected, .netEvent true]) := by
  decide

/-- C6 (amended): when the user id is already known, the enrolled-courses
fetch (performed with `catchNetworkError = false`) is fully guarded: if it
resolves with a course list, `getCourses` returns the normalized list and
overwrites the cache with it; if it throws, or resolves with `undefined`
(making `courses.map` throw), the exception is caught, `getCourses` returns
the previously cached list, and the cache is unchanged.  Only the user-id
resolution step, outside the guard, can reject. -/
theorem getCourses_fetch_amended (fuel : Nat) (st : MoodleState) (uid : Int)
    (ns : List (NetOutcome SiteInfo)) (ls : List Bool)
    (nc : List (NetOutcome (List RawCourse))) (lc : List Bool)
    (hu : st.userid = some uid) :
    (∀ raw st1 nets1 lc1 evs,
        callM fuel false st nc lc = ⟨.value (some raw), st1, nets1, lc1, evs⟩ →
        getCoursesM fuel st ns ls nc lc
          = (.ok (raw.map courseOfRaw), { st1 with cachedCourses := raw.map courseOfRaw },
              evs))
    ∧ (∀ st1 nets1 lc1 evs,
        callM fuel false st nc lc = ⟨.thrown, st1, nets1, lc1, evs⟩ →
        getCoursesM fuel st ns ls nc lc = (.ok st.cachedCourses, st1, evs)
          ∧ st1.cachedCourses = st.cachedCourses)
    ∧ (∀ st1 nets1 lc1 evs,
        callM fuel false st nc lc = ⟨.value none, st1, nets1, lc1, evs⟩ →
        getCoursesM fuel st ns ls nc lc = (.ok st.cachedCourses, st1, evs)
          ∧ st1.cachedCourses = st.cachedCourses) := by
  have hcache := exec_cache fuel (.call false) st nc lc
  refine ⟨fun raw st1 nets1 lc1 evs hc => ?_, fun st1 nets1 lc1 evs hc => ?_,
    fun st1 nets1 lc1 evs hc => ?_⟩ <;>
    rw [callM] at hc <;>
    rw [hc] at hcache <;>
    (simp [getCoursesM, hu, getCoursesFetch, callM, hc, hcache]; try exact hcache)

/-- C6 (witness for the amended claim): a successful fetch normalizes the
names and overwrites the cache. -/
theorem getCourses_fetch_amended_witness :
    getCoursesM 1 ⟨true, true, some 1, none, []⟩ [] [] [.ok [⟨7, "2023 - Roba (X)"⟩]] []
      = (.ok ([(⟨7, "2023 - Roba (X)"⟩ : RawCourse)].map courseOfRaw),
          ⟨true, true, some 1, none, [(⟨7, "2023 - Roba (X)"⟩ : RawCourse)].map courseOfRaw⟩,
          []) := by
  have h := (getCourses_fetch_amended 1 ⟨true, true, some 1, none, []⟩ 1 [] []
      [.ok [⟨7, "2023 - Roba (X)"⟩]] [] rfl).1
      [⟨7, "2023 - Roba (X)"⟩] ⟨true, true, some 1, none, []⟩ [] [] [] rfl
  exact h

/-- C10: the in-memory course cache starts empty (`cachedCourses` is
initialised to `[]` on line 43), so a `getCourses` invocation whose fetch
fails — by throwing or by resolving with `undefined` — before any successful
fetch has filled the cache returns the empty list. -/
theorem cache_initially_empty_fallback (l : Bool) (fuel : Nat) (st : MoodleState) (uid : Int)
    (ns : List (NetOutcome SiteInfo)) (ls : List Bool)
    (nc : List (NetOutcome (List RawCourse))) (lc : List Bool)
    (hc : st.cachedCourses = []) (hu : st.userid = some uid)
    (hf : (callM fuel false st nc lc).res = .thrown
        ∨ (callM fuel false st nc lc).res = .value none) :
    (initialMoodleState l).cachedCourses = []
    ∧ (getCoursesM fuel st ns ls nc lc).1 = .ok [] := by
  refine ⟨rfl, ?_⟩
  have hcache := exec_cache fuel (.call false) st nc lc
  rcases hf with hf | hf <;>
    rw [callM] at hf <;>
    simp [getCoursesM, hu, getCoursesFetch, callM, hf] <;>
    exact hcache.trans hc

/-- Membership in the entry filter: exactly the entries of kind `"file"`,
mapped through `fileInfoOfEntry`. -/
theorem mem_entryFiles (m : CModule) (fs : List FileContent) (fi : FileInfo) :
    fi ∈ entryFiles m fs ↔ ∃ f ∈ fs, f.type = "file" ∧ fi = fileInfoOfEntry m f := by
  induction fs with
  | nil => simp [entryFiles]
  | cons f fs ih =>
    by_cases h : f.type = "file" <;> simp [entryFiles, h, ih]

/-- Membership in a single module's contribution. -/
theorem mem_moduleFiles (m : CModule) (fi : FileInfo) :
    fi ∈ moduleFiles m ↔
      ∃ cs, m.contents = some cs ∧ fi ∈ entryFiles m cs := by
  cases h : m.contents <;> simp [moduleFiles, h]

/-- Membership in the flattening over all modules. -/
theorem mem_modulesFiles (ms : List CModule) (fi : FileInfo) :
    fi ∈ modulesFiles ms ↔ ∃ m ∈ ms, fi ∈ moduleFiles m := by
  induction ms with
  | nil => simp [modulesFiles]
  | cons m ms ih => simp [modulesFiles, ih]

/-- C4: `getFileInfos` returns exactly the content entries of kind `"file"`
under the modules of the Materials section — entries of any other kind, and
sections other than the one `find` locates, contribute nothing — and each
returned `FileInfo` carries the owning module's name path-joined with the
entry's original filepath.  In particular a file `slides.pdf` with original
filepath `""` in module `Lecture 1` of the Materials section yields the
filepath `Lecture 1`, while an entry of kind `"url"` is dropped. -/
theorem fileInfos_characterization :
    (∀ (contents : List CSection) (fi : FileInfo),
      fi ∈ fileInfosOfContents contents ↔
        ∃ mat, contents.find? (fun c => c.name == "Materiali") = some mat ∧
          ∃ m ∈ mat.modules, ∃ cs, m.contents = some cs ∧
            ∃ f ∈ cs, f.type = "file" ∧ fi = fileInfoOfEntry m f)
    ∧ fileInfosOfContents
        [⟨1, "Materiali", [⟨2, "Lecture 1",
            some [⟨"file", "slides.pdf", "", 100, "u", 10, 20⟩,
                  ⟨"url", "a link", "", 0, "u2", 10, 20⟩]⟩]⟩]
        = [⟨"slides.pdf", "Lecture 1", 100, "u", 10, 20⟩] := by
  constructor
  · intro contents fi
    unfold fileInfosOfContents
    cases h : contents.find? (fun c => c.name == "Materiali") with
    | none => simp
    | some mat =>
      simp only [mem_modulesFiles, mem_moduleFiles, mem_entryFiles, Option.some.injEq]
      constructor
      · rintro ⟨m, hm, cs, hcs, f, hf, ht, he⟩
        exact ⟨mat, rfl, m, hm, cs, hcs, f, hf, ht, he⟩
      · rintro ⟨mat2, heq, m, hm, cs, hcs, f, hf, ht, he⟩
        cases heq
        exact ⟨m, hm, cs, hcs, f, hf, ht, he⟩
  · decide

/-- C10 (witness): a fresh cache and a fetch that hits a network error. -/
theorem cache_initially_empty_fallback_witness :
    (initialMoodleState true).cachedCourses = []
    ∧ (getCoursesM 1 ⟨true, true, some 1, none, []⟩ [] [] [.netError] []).1 = .ok [] :=
  cache_initially_empty_fallback true 1 ⟨true, true, some 1, none, []⟩ 1 [] [] [.netError] []
    rfl rfl (Or.inl rfl)

/-! ## Lemmas about the regex normalization -/

theorem take_append_self (l r : List Char) : (l ++ r).take l.length = l := by
  induction l with
  | nil => rfl
  | cons a l ih => simp [ih]

theorem drop_append_self (l r : List Char) : (l ++ r).drop l.length = r := by
  induction l with
  | nil => rfl
  | cons a l ih => simp [ih]

theorem drop_append_add (l r : List Char) (m : Nat) :
    (l ++ r).drop (l.length + m) = r.drop m := by
  induction l with
  | nil => simp
  | cons a l ih => simp [Nat.succ_add, ih]

theorem drop_two_cons (a b : Char) (l : List Char) (k : Nat) :
    (a :: b :: l).drop (2 + k) = l.drop k := by
  rw [Nat.add_comm]
  rfl

/-- A closing parenthesis is reachable across any run of `.`-characters. -/
theorem closeAfter_append_close (l : List Char) (h : ∀ c ∈ l, jsDot c) :
    closeAfter (l ++ [')']) = true := by
  induction l with
  | nil => rfl
  | cons c l ih =>
    simp [closeAfter, h c (List.mem_cons_self c l),
      ih fun e he => h e (List.mem_cons_of_mem c he)]

/-- In a list without `'('`, the tail pattern ` \(.+\)` matches at no
position. -/
theorem tailOk_no_paren (l : List Char) (h : ∀ c ∈ l, c ≠ '(') (k : Nat) :
    tailOk (l.drop k) = false := by
  cases hd : l.drop k with
  | nil => rfl
  | cons a u =>
    cases u with
    | nil => rfl
    | cons b v =>
      have hb : b ∈ l := by
        refine List.drop_subset k l ?_
        rw [hd]
        exact List.mem_cons_of_mem a (List.mem_cons_self b v)
      have hbp : (b == '(') = false := by
        simpa using h b hb
      simp [tailOk, hbp]

/-- When every split above `m` fails, the greedy search from `M` gives the
same answer as the search from `m`. -/
theorem maxSplitAux_above (t : List Char) (m : Nat) :
    ∀ M, m ≤ M → (∀ j, m < j → j ≤ M → splitOk t j = false) →
      maxSplitAux t M = maxSplitAux t m := by
  intro M
  induction M with
  | zero =>
    intro hm _
    cases Nat.le_zero.mp hm
    rfl
  | succ M ih =>
    intro hm hfail
    rcases Nat.lt_or_ge m (M + 1) with h | h
    · have hf : splitOk t (M + 1) = false := hfail (M + 1) h (Nat.le_refl _)
      simp only [maxSplitAux, hf, Bool.false_eq_true, if_false]
      exact ih (Nat.lt_succ_iff.mp h) fun j h1 h2 => hfail j h1 (Nat.le_succ_of_le h2)
    · rw [Nat.le_antisymm hm h]

/-- Greedy capture on the decomposed tail: with no `'('` in the suffix the
longest valid split ends exactly at the name. -/
theorem capTail_shape (n suf : List Char)
    (hn : n ≠ []) (hnd : ∀ c ∈ n, jsDot c) (hsuf : suf ≠ [])
    (hsufd : ∀ c ∈ suf, jsDot c) (hpar : '(' ∉ suf) :
    capTail (n ++ (' ' :: '(' :: (suf ++ [')']))) = some n := by
  have hvalid : splitOk (n ++ (' ' :: '(' :: (suf ++ [')']))) n.length = true := by
    unfold splitOk
    rw [take_append_self, drop_append_self]
    cases suf with
    | nil => exact absurd rfl hsuf
    | cons c suf' =>
      simp [tailOk, innerOk, List.all_eq_true,
        hsufd c (List.mem_cons_self c suf'),
        closeAfter_append_close suf' fun e he => hsufd e (List.mem_cons_of_mem c he)]
      exact hnd
  have hfail : ∀ j, n.length < j → splitOk (n ++ (' ' :: '(' :: (suf ++ [')']))) j = false := by
    intro j hj
    have htail : tailOk ((n ++ (' ' :: '(' :: (suf ++ [')']))).drop j) = false := by
      rcases Nat.lt_or_ge j (n.length + 2) with h2 | h2
      · have hj1 : j = n.length + 1 := by omega
        rw [hj1, drop_append_add n _ 1]
        cases suf with
        | nil => exact absurd rfl hsuf
        | cons c suf' => simp [tailOk]
      · obtain ⟨k, hk⟩ := Nat.exists_eq_add_of_le h2
        rw [hk, Nat.add_assoc, drop_append_add n _ (2 + k), drop_two_cons]
        refine tailOk_no_paren (suf ++ [')']) ?_ k
        intro c hc
        rcases List.mem_append.mp hc with hc | hc
        · intro he
          exact hpar (he ▸ hc)
        · simp only [List.mem_singleton] at hc
          rw [hc]
          decide
    unfold splitOk
    rw [htail, Bool.and_false]
  have hlen : n.length ≤ (n ++ (' ' :: '(' :: (suf ++ [')']))).length := by
    simp
  have hstep := maxSplitAux_above (n ++ (' ' :: '(' :: (suf ++ [')']))) n.length
    (n ++ (' ' :: '(' :: (suf ++ [')']))).length hlen
    fun j h1 _ => hfail j h1
  unfold capTail
  rw [hstep]
  cases hN : n.length with
  | zero => exact absurd (List.length_eq_zero.mp hN) hn
  | succ m =>
    rw [hN] at hvalid
    simp only [maxSplitAux, hvalid, if_true, Option.map_some']
    rw [← hN, take_append_self]

/-- The maximal digit run of the name, followed by a non-digit, is what
`\d+` consumes. -/
theorem dropWhile_digits (d : List Char) (c0 : Char) (r : List Char)
    (hd : ∀ c ∈ d, c.isDigit) (hc0 : c0.isDigit = false) :
    (d ++ c0 :: r).dropWhile Char.isDigit = c0 :: r := by
  induction d with
  | nil => simp [List.dropWhile_cons, hc0]
  | cons a d ih =>
    simp [List.dropWhile_cons, hd a (List.mem_cons_self a d),
      ih fun c hc => hd c (List.mem_cons_of_mem a hc)]

/-- The regex matches a well-formed display name at position 0 and captures
exactly the name part. -/
theorem regexCapture_shape (d n suf : List Char)
    (hd : d ≠ []) (hdig : ∀ c ∈ d, c.isDigit)
    (hn : n ≠ []) (hnd : ∀ c ∈ n, jsDot c)
    (hsuf : suf ≠ []) (hsufd : ∀ c ∈ suf, jsDot c) (hpar : '(' ∉ suf) :
    regexCapture (d ++ (' ' :: '-' :: ' ' :: (n ++ (' ' :: '(' :: (suf ++ [')'])))))
      = some n := by
  cases d with
  | nil => exact absurd rfl hd
  | cons c d' =>
    have hc : c.isDigit = true := hdig c (List.mem_cons_self c d')
    have hdw : (c :: (d' ++ (' ' :: '-' :: ' ' :: (n ++ (' ' :: '(' :: (suf ++ [')'])))))).dropWhile
        Char.isDigit
          = ' ' :: '-' :: ' ' :: (n ++ (' ' :: '(' :: (suf ++ [')']))) :=
      dropWhile_digits (c :: d') ' '
        ('-' :: ' ' :: (n ++ (' ' :: '(' :: (suf ++ [')'])))) hdig (by decide)
    have ht : tryStart (c :: (d' ++ (' ' :: '-' :: ' ' :: (n ++ (' ' :: '(' :: (suf ++ [')']))))))
        = capTail (n ++ (' ' :: '(' :: (suf ++ [')']))) := by
      unfold tryStart
      simp only [hc, if_true, hdw]
    rw [List.cons_append]
    unfold regexCapture
    rw [ht, capTail_shape n suf hn hnd hsuf hsufd hpar]

/-- C3 (counterexample): the claim says a display name not of the exact
shape `<digits> - <name> (<suffix>)` passes through unchanged.  The regex on
line 112 is unanchored, so `"x1 - A (B)"` — which is not of the shape, since
its first character is not a digit — is still rewritten to `"A"`. -/
theorem normalize_unanchored_counterexample :
    normalizeName "x1 - A (B)" = "A"
    ∧ "A" ≠ "x1 - A (B)"
    ∧ ¬ isShape ("x1 - A (B)".data) := by
  refine ⟨by decide, by decide, ?_⟩
  rintro ⟨d, n, suf, hd, hdig, hn, hsuf, heq⟩
  have hdata : ("x1 - A (B)".data) = 'x' :: "1 - A (B)".data := rfl
  rw [hdata] at heq
  cases d with
  | nil => exact hd rfl
  | cons c d' =>
    rw [List.cons_append] at heq
    injection heq with h1 h2
    have hcd := hdig c (List.mem_cons_self c d')
    rw [← h1] at hcd
    exact absurd hcd (by decide)

/-- C3 (amended): the normalization of `getCourses` replaces a display name
by the capture group of the leftmost greedy match of the *unanchored*
pattern `\d+ - (.+) \(.+\)`, and leaves names with no match unchanged.  In
particular, for every display name of the shape
`<digits> - <name> (<suffix>)` in which name and suffix contain no line
terminator and the suffix contains no `'('` (so that the greedy capture
cannot extend past the name), the resulting course name is exactly
`<name>`; but a name that merely *contains* such a pattern is also
rewritten. -/
theorem normalize_shape_amended (i : Int) (s : String) (d n suf : List Char)
    (hsd : s.data = d ++ [' ', '-', ' '] ++ n ++ [' ', '('] ++ suf ++ [')'])
    (hd : d ≠ []) (hdig : ∀ c ∈ d, c.isDigit)
    (hn : n ≠ []) (hnd : ∀ c ∈ n, jsDot c)
    (hsuf : suf ≠ []) (hsufd : ∀ c ∈ suf, jsDot c)
    (hpar : '(' ∉ suf) :
    courseOfRaw ⟨i, s⟩ = ⟨i, ⟨n⟩⟩ := by
  have hcap := regexCapture_shape d n suf hd hdig hn hnd hsuf hsufd hpar
  have hconv : s.data = d ++ (' ' :: '-' :: ' ' :: (n ++ (' ' :: '(' :: (suf ++ [')'])))) := by
    rw [hsd]
    simp
  simp only [courseOfRaw, normalizeName, normalizeNameL, hconv, hcap]

/-- C3 (witness for the amended claim): the spec's concrete scenario,
`"2023 - Systems Programming (SP)"` normalizes to
`"Systems Programming"`. -/
theorem normalize_shape_amended_witness :
    courseOfRaw ⟨1, "2023 - Systems Programming (SP)"⟩ = ⟨1, "Systems Programming"⟩ := by
  have h := normalize_shape_amended 1 "2023 - Systems Programming (SP)"
    "2023".data "Systems Programming".data "SP".data (by decide) (by decide) (by decide)
    (by decide) (by decide) (by decide) (by decide) (by decide)
  exact h

end Webeep
